import Mathlib

/-!
Verification development for the countdown-image service in `api/timer.js`.

The handler is shallowly embedded: JavaScript numbers holding millisecond
timestamps become `Int`, canvas text measurements (floating point widths)
become `ℚ` supplied by an abstract measurement oracle, query parameters
become `Option String` fields, and the `try`/`catch` control flow becomes
an `Except Unit` computation.  Library behaviour that is not part of the
repository (day.js parsing, the IANA timezone database, canvas encoding)
is modelled explicitly and marked as such.
-/

namespace EmailTimer

/-- JS `clamp = (n, min, max) => Math.min(Math.max(n, min), max)` from `api/timer.js`. -/
def clamp (n mn mx : Int) : Int := min (max n mn) mx

/-- Numeric value of a decimal digit character. -/
def digitVal (c : Char) : Option Nat :=
  if c.isDigit then some (c.toNat - 48) else none

/-- Value of the leading run of decimal digits of a character list
(`parseInt` keeps reading digits and stops at the first non-digit);
`none` when there is no leading digit, which is JS `NaN`. -/
def leadingDigitsVal (cs : List Char) : Option Nat :=
  let ds := cs.takeWhile Char.isDigit
  if ds.isEmpty then none
  else some (ds.foldl (fun a c => a * 10 + (c.toNat - 48)) 0)

/-- Modelled from the spec: JS `parseInt(v, 10)` (the ECMAScript builtin is not
part of the repository).  Leading whitespace is skipped, an optional sign is
read, then the longest digit prefix; no digits means `NaN`, modelled as `none`. -/
def parseIntJs (s : String) : Option Int :=
  let cs := s.toList.dropWhile (fun c => c = ' ' || c = '\t' || c = '\n' || c = '\r')
  match cs with
  | '-' :: rest => (leadingDigitsVal rest).map (fun n => -(n : Int))
  | '+' :: rest => (leadingDigitsVal rest).map (fun n => (n : Int))
  | _ => (leadingDigitsVal cs).map (fun n => (n : Int))

/-- JS `toInt = (v, d = 0) => { const n = parseInt(v, 10); return Number.isFinite(n) ? n : d; }`
from `api/timer.js`; an absent parameter is `undefined`, whose `parseInt` is `NaN`. -/
def toInt (v : Option String) (d : Int) : Int :=
  match v with
  | none => d
  | some s => (parseIntJs s).getD d

/-- JS truthiness of an optional string parameter: present and non-empty. -/
def truthy (v : Option String) : Bool :=
  match v with
  | none => false
  | some s => decide (s ≠ "")

/-- JS `o || d` on an optional string parameter: the default replaces both
an absent and an empty value. -/
def orDefault (v : Option String) (d : String) : String :=
  match v with
  | none => d
  | some s => if s = "" then d else s

/-- JS `s.slice(0, n)`: the first `n` characters, never failing. -/
def slice (s : String) (n : Nat) : String := ⟨s.toList.take n⟩

/-- JS `s.toLowerCase()` restricted to the character-wise lowering used here. -/
def toLowerCase (s : String) : String := ⟨s.toList.map Char.toLower⟩

/-- The query-string mapping of `api/timer.js`: each recognized parameter is
either absent (`none`) or a string value. -/
structure Query where
  «end»       : Option String := none
  end_local   : Option String := none
  tz          : Option String := none
  start       : Option String := none
  ttl_days    : Option String := none
  ttl_hours   : Option String := none
  ttl_minutes : Option String := none
  ttl_seconds : Option String := none
  w           : Option String := none
  h           : Option String := none
  scale       : Option String := none
  show_labels : Option String := none
  delim       : Option String := none
  expiredText : Option String := none
  padDays     : Option String := none
  debug       : Option String := none
deriving DecidableEq

/-- The query with no parameters supplied. -/
def qEmpty : Query := {}

/-- Rendering option `width = clamp(toInt(q.w, 600), 200, 1600)`. -/
def widthOf (q : Query) : Int := clamp (toInt q.w 600) 200 1600

/-- Rendering option `height = clamp(toInt(q.h, 140), 80, 400)`. -/
def heightOf (q : Query) : Int := clamp (toInt q.h 140) 80 400

/-- Rendering option `scale = clamp(toInt(q.scale, 1), 1, 2)`. -/
def scaleOf (q : Query) : Int := clamp (toInt q.scale 1) 1 2

/-- Rendering option `padDays = clamp(toInt(q.padDays, 2), 1, 4)`. -/
def padDaysOf (q : Query) : Int := clamp (toInt q.padDays 2) 1 4

/-- Rendering option `delim = (q.delim || ':').slice(0, 3)`. -/
def delimOf (q : Query) : String := slice (orDefault q.delim ":") 3

/-- Rendering option `expiredText = (q.expiredText || '00:00:00:00').toString().slice(0, 32)`. -/
def expiredTextOf (q : Query) : String := slice (orDefault q.expiredText "00:00:00:00") 32

/-- Rendering option `showLabels = String(q.show_labels || 'true').toLowerCase() !== 'false'`. -/
def showLabelsOf (q : Query) : Bool := toLowerCase (orDefault q.show_labels "true") ≠ "false"

/-- Modelled from the spec: days from 1970-01-01 to the given civil date
(proleptic Gregorian), the arithmetic day.js performs through the JS `Date`
epoch, which is not part of the repository.  Divisions are floor divisions. -/
def daysFromCivil (year : Int) (month day : Nat) : Int :=
  let y : Int := if month ≤ 2 then year - 1 else year
  let era : Int := y / 400
  let yoe : Int := y - era * 400
  let mp : Nat := (month + 9) % 12
  let doy : Nat := (153 * mp + 2) / 5 + (day - 1)
  let doe : Int := yoe * 365 + yoe / 4 - yoe / 100 + (doy : Int)
  era * 146097 + doe - 719468

/-- Milliseconds since the UTC epoch of a civil date and time of day. -/
def epochMs (year : Int) (month day hour minute second : Nat) : Int :=
  daysFromCivil year month day * 86400000 +
    (hour : Int) * 3600000 + (minute : Int) * 60000 + (second : Int) * 1000

/-- Number of days in a month of the proleptic Gregorian calendar. -/
def daysInMonth (year : Int) (month : Nat) : Nat :=
  if month = 2 then
    if year % 4 = 0 ∧ (year % 100 ≠ 0 ∨ year % 400 = 0) then 29 else 28
  else if month = 4 ∨ month = 6 ∨ month = 9 ∨ month = 11 then 30
  else 31

/-- Two decimal digit characters as a number. -/
def num2 (a b : Char) : Option Nat := do
  let x ← digitVal a
  let y ← digitVal b
  pure (10 * x + y)

/-- Four decimal digit characters as a number. -/
def num4 (a b c d : Char) : Option Nat := do
  let x ← num2 a b
  let y ← num2 c d
  pure (100 * x + y)

/-- Calendar components, validated, to milliseconds since the UTC epoch. -/
def mkInstant (y mo d hh mi ss : Nat) : Option Int :=
  if 1 ≤ mo ∧ mo ≤ 12 ∧ 1 ≤ d ∧ d ≤ daysInMonth (y : Int) mo ∧
      hh < 24 ∧ mi < 60 ∧ ss < 60 then
    some (epochMs (y : Int) mo d hh mi ss)
  else none

/-- Strip one trailing `Z` designator. -/
def stripZ (cs : List Char) : List Char :=
  if cs.getLast? = some 'Z' then cs.dropLast else cs

/-- Modelled from the spec: `dayjs.utc(s)` parsing of an absolute UTC instant
(day.js itself is not part of the repository), restricted to the ISO-8601
forms the interface documents: `YYYY-MM-DD`, `YYYY-MM-DDTHH:mm` and
`YYYY-MM-DDTHH:mm:ss`, each with an optional trailing `Z`.  An invalid date
is day.js "Invalid Date", modelled as `none`. -/
def parseUtc (s : String) : Option Int :=
  match stripZ s.toList with
  | [y1, y2, y3, y4, '-', a1, a2, '-', d1, d2, 'T', h1, h2, ':', m1, m2, ':', s1, s2] => do
      let y ← num4 y1 y2 y3 y4
      let mo ← num2 a1 a2
      let d ← num2 d1 d2
      let hh ← num2 h1 h2
      let mi ← num2 m1 m2
      let ss ← num2 s1 s2
      mkInstant y mo d hh mi ss
  | [y1, y2, y3, y4, '-', a1, a2, '-', d1, d2, 'T', h1, h2, ':', m1, m2] => do
      let y ← num4 y1 y2 y3 y4
      let mo ← num2 a1 a2
      let d ← num2 d1 d2
      let hh ← num2 h1 h2
      let mi ← num2 m1 m2
      mkInstant y mo d hh mi 0
  | [y1, y2, y3, y4, '-', a1, a2, '-', d1, d2] => do
      let y ← num4 y1 y2 y3 y4
      let mo ← num2 a1 a2
      let d ← num2 d1 d2
      mkInstant y mo d 0 0 0
  | _ => none

/-- Wall-clock components without a zone: year, month, day, hour, minute, second. -/
structure WallClock where
  year   : Nat
  month  : Nat
  day    : Nat
  hour   : Nat
  minute : Nat
  second : Nat
deriving DecidableEq

/-- Modelled from the spec: the strict `dayjs(withT, ['YYYY-MM-DDTHH:mm', 'YYYY-MM-DD HH:mm'], true)`
parse of `api/timer.js` (day.js customParseFormat is not part of the repository).
By the time it runs, the string's first space has been replaced by `T`, so only
the `YYYY-MM-DDTHH:mm` layout can match; a strict match also requires a valid
calendar date. -/
def parseLocalStrict (s : String) : Option WallClock :=
  match s.toList with
  | [y1, y2, y3, y4, '-', a1, a2, '-', d1, d2, 'T', h1, h2, ':', m1, m2] => do
      let y ← num4 y1 y2 y3 y4
      let mo ← num2 a1 a2
      let d ← num2 d1 d2
      let hh ← num2 h1 h2
      let mi ← num2 m1 m2
      if 1 ≤ mo ∧ mo ≤ 12 ∧ 1 ≤ d ∧ d ≤ daysInMonth (y : Int) mo ∧ hh < 24 ∧ mi < 60 then
        pure ⟨y, mo, d, hh, mi, 0⟩
      else none
  | _ => none

/-- Modelled from the spec: the permissive fallback `dayjs(withT)` of
`api/timer.js` (day.js general parsing is not part of the repository),
modelled as the same layout with an optional seconds field. -/
def parseLoose (s : String) : Option WallClock :=
  match parseLocalStrict s with
  | some wc => some wc
  | none =>
    match s.toList with
    | [y1, y2, y3, y4, '-', a1, a2, '-', d1, d2, 'T', h1, h2, ':', m1, m2, ':', s1, s2] => do
        let y ← num4 y1 y2 y3 y4
        let mo ← num2 a1 a2
        let d ← num2 d1 d2
        let hh ← num2 h1 h2
        let mi ← num2 m1 m2
        let ss ← num2 s1 s2
        if 1 ≤ mo ∧ mo ≤ 12 ∧ 1 ≤ d ∧ d ≤ daysInMonth (y : Int) mo ∧
            hh < 24 ∧ mi < 60 ∧ ss < 60 then
          pure ⟨y, mo, d, hh, mi, ss⟩
        else none
    | _ => none

/-- JS `raw.replace(' ', 'T')`: replace only the first space. -/
def replaceFirstSpace : List Char → List Char
  | [] => []
  | c :: rest => if c = ' ' then 'T' :: rest else c :: replaceFirstSpace rest

/-- The `withT` normalization of `api/timer.js`:
`raw.includes('T') ? raw : raw.replace(' ', 'T')`. -/
def withT (raw : String) : String :=
  if raw.toList.contains 'T' then raw else ⟨replaceFirstSpace raw.toList⟩

/-- The end-time input mode selected by the cascade of `api/timer.js`
(lines 83-107): `end`, then `end_local && tz`, then `start && ttl_*`,
then the 24-hour default. -/
inductive Mode where
  | absolute
  | localZone
  | startTtl
  | evergreen
deriving DecidableEq

/-- Mode selection: the guard conditions of the cascade in `api/timer.js`,
in source order, with JS truthiness of the parameters. -/
def selectMode (q : Query) : Mode :=
  if truthy q.«end» then .absolute
  else if truthy q.end_local && truthy q.tz then .localZone
  else if truthy q.start &&
      (truthy q.ttl_days || truthy q.ttl_hours || truthy q.ttl_minutes || truthy q.ttl_seconds) then
    .startTtl
  else .evergreen

/-- End-time resolution of `api/timer.js` (lines 82-108).  `tzdb` is the
IANA zone table (zone name to offset minutes east of UTC; absent zone makes
`.tz` throw), `now` the current UTC instant in ms.  The result is
`.error ()` when the underlying library call throws (caught by the outer
`try`): an unknown zone name, or a wall-clock string neither parse accepts,
since converting an invalid date to a zone raises a range error; it is
`.ok none` when the end is an invalid instant, and `.ok (some e)` when
the end resolves to `e`.  Reinterpreting a wall clock in a zone without
shifting its digits (`.tz(zone, true)` then `.utc()`) subtracts the zone
offset from the wall clock read as if it were UTC; this library behaviour is
modelled from the spec. -/
def resolveEnd (tzdb : String → Option Int) (q : Query) (now : Int) : Except Unit (Option Int) :=
  match selectMode q with
  | .absolute => .ok (parseUtc (q.«end».getD ""))
  | .localZone =>
      let t := withT (q.end_local.getD "")
      match parseLocalStrict t with
      | some wc =>
          match tzdb (q.tz.getD "") with
          | some off => .ok (some (epochMs (wc.year : Int) wc.month wc.day wc.hour wc.minute wc.second - off * 60000))
          | none => .error ()
      | none =>
          match parseLoose t with
          | some wc =>
              match tzdb (q.tz.getD "") with
              | some off => .ok (some (epochMs (wc.year : Int) wc.month wc.day wc.hour wc.minute wc.second - off * 60000))
              | none => .error ()
          | none => .error ()
  | .startTtl =>
      match parseUtc (q.start.getD "") with
      | none => .ok none
      | some s =>
          .ok (some (s + toInt q.ttl_days 0 * 86400000 + toInt q.ttl_hours 0 * 3600000 +
            toInt q.ttl_minutes 0 * 60000 + toInt q.ttl_seconds 0 * 1000))
  | .evergreen => .ok (some (now + 24 * 3600000))

/-- The remaining-time clamp of `api/timer.js` (lines 116-117):
`let ms = endUtc.diff(now); if (ms < 0) ms = 0;`. -/
def remainingMs (endUtc now : Int) : Int :=
  let ms := endUtc - now
  if ms < 0 then 0 else ms

/-- JS `s.padStart(n, '0')`: left-pad with zeros up to length `n`,
returning `s` unchanged when it is already at least that long. -/
def padStart (s : String) (n : Nat) : String :=
  if n ≤ s.length then s else ⟨List.replicate (n - s.length) '0' ++ s.toList⟩

/-- Days component of `dayjs.duration(ms)`: `Math.floor(d.asDays())`. -/
def durDays (ms : Nat) : Nat := ms / 86400000

/-- Hours component of `dayjs.duration(ms)`: `d.hours()`. -/
def durHours (ms : Nat) : Nat := ms / 3600000 % 24

/-- Minutes component of `dayjs.duration(ms)`: `d.minutes()`. -/
def durMinutes (ms : Nat) : Nat := ms / 60000 % 60

/-- Seconds component of `dayjs.duration(ms)`: `d.seconds()`. -/
def durSeconds (ms : Nat) : Nat := ms / 1000 % 60

/-- The four formatted duration strings of `api/timer.js` (lines 140-143):
days padded to at least `padDays` digits, then hours, minutes, seconds each
padded to two digits. -/
def groupsOf (ms : Nat) (padDays : Nat) : List String :=
  [padStart (toString (durDays ms)) padDays,
   padStart (toString (durHours ms)) 2,
   padStart (toString (durMinutes ms)) 2,
   padStart (toString (durSeconds ms)) 2]

/-- The displayed groups of `api/timer.js` (line 144):
`ms === 0 ? expiredText.split(delim) : [days, hours, mins, secs]`. -/
def groups (ms : Nat) (padDays : Nat) (expiredText delim : String) : List String :=
  if ms = 0 then expiredText.splitOn delim else groupsOf ms padDays

/-- `showUnitLabels = showLabels && ms > 0` from `api/timer.js` (line 146). -/
def showUnitLabels (q : Query) (ms : Nat) : Bool :=
  showLabelsOf q && decide (0 < ms)

/-- Token kind of a display part: `'num'` or `'delim'` in `api/timer.js`. -/
inductive PartKind where
  | num
  | delim
deriving DecidableEq

/-- A display token: `{ type, text }` as pushed onto `parts` in `api/timer.js`. -/
structure Part where
  type : PartKind
  text : String
deriving DecidableEq

/-- The `parts` construction loop of `api/timer.js` (lines 162-166):
a `num` token per group with a `delim` token after every group but the last. -/
def mkParts (delim : String) : List String → List Part
  | [] => []
  | [g] => [⟨.num, g⟩]
  | g :: gs => ⟨.num, g⟩ :: ⟨.delim, delim⟩ :: mkParts delim gs

/-- Measured advance of the token run at a font size (the loop body of
lines 177-181): each token's oracle-measured width plus a margin of 10% of
the font size for a delimiter and 25% for a number.  `measure` is the
`ctx.measureText` oracle at the given font size; widths are exact rationals
in place of the canvas floats. -/
def wTotal (measure : String → Int → ℚ) (parts : List Part) (size : Int) : ℚ :=
  parts.foldl
    (fun acc p =>
      acc + (measure p.text size +
        (if p.type = .delim then (size : ℚ) * (1 / 10) else (size : ℚ) * (1 / 4))))
    0

/-- The binary-search loop of `api/timer.js` (lines 174-183) over candidate
font sizes: `pred mid` is `wTotal <= maxWidth` at size `mid`; on success the
candidate is recorded in `fs` and the search continues above, otherwise below. -/
def fitLoop (pred : Int → Bool) (low high fs : Int) : Int :=
  if low ≤ high then
    if pred ((low + high) / 2) then fitLoop pred ((low + high) / 2 + 1) high ((low + high) / 2)
    else fitLoop pred low ((low + high) / 2 - 1) fs
  else fs
termination_by (high + 1 - low).toNat
decreasing_by
  · omega
  · omega

/-- Initial font size and search upper bound: `Math.floor(contentH * 0.9)`. -/
def fitHigh (contentH : Int) : Int := contentH * 9 / 10

/-- Width budget: `maxWidth = Math.floor(W * 0.92)`. -/
def fitMaxWidth (w : Int) : Int := w * 92 / 100

/-- The font-fitting step of `api/timer.js` (lines 169-183): binary search
over `[12, Math.floor(contentH * 0.9)]` with the initial font size as the
fallback result. -/
def fitFontSize (measure : String → Int → ℚ) (parts : List Part) (contentH w : Int) : Int :=
  fitLoop (fun mid => decide (wTotal measure parts mid ≤ (fitMaxWidth w : ℚ))) 12
    (fitHigh contentH) (fitHigh contentH)

/-- The response observed by the caller, abstracting body bytes: the branch
of `api/timer.js` that produced it and the data it carries. -/
inductive Response where
  | badRequest (msg : String)
  | debugJson (q : Query) (nowUtc endUtc diffMs : Int)
  | png (w h : Int)
  | fallbackPng
  | err500
deriving DecidableEq

/-- A response that is an image body (the main PNG or the 1×1 fallback). -/
def isImage : Response → Bool
  | .png _ _ => true
  | .fallbackPng => true
  | _ => false

/-- A response that is plain error text. -/
def isTextError : Response → Bool
  | .badRequest _ => true
  | _ => false

/-- The request handler of `api/timer.js`: the `try` block resolves the end
time, sends `400 Invalid end time` on an invalid instant, returns debug JSON
when `q.debug === '1'`, and otherwise renders the PNG; any exception reaches
the `catch`, which sends a 1×1 fallback PNG with status 200 unless encoding
that also fails (`renderThrows` and `fallbackThrows` model whether the canvas
raster/encode calls throw, behaviour outside the repository). -/
def handler (tzdb : String → Option Int) (q : Query) (now : Int)
    (renderThrows fallbackThrows : Bool) : Response :=
  let tryBlock : Except Unit Response :=
    match resolveEnd tzdb q now with
    | .error _ => .error ()
    | .ok none => .ok (.badRequest "Invalid end time")
    | .ok (some endUtc) =>
        let ms := remainingMs endUtc now
        if q.debug = some "1" then .ok (.debugJson q now endUtc ms)
        else if renderThrows then .error ()
        else .ok (.png (widthOf q * scaleOf q) (heightOf q * scaleOf q))
  match tryBlock with
  | .ok r => r
  | .error _ => if fallbackThrows then .err500 else .fallbackPng

/-- A measurement oracle whose widths equal the font size; monotone. -/
def wMeasure : String → Int → ℚ := fun _ s => (s : ℚ)

/-- A constant measurement oracle that is wider than any canvas used with it;
monotone, and no font size in the search range can fit. -/
def cexMeasure : String → Int → ℚ := fun _ _ => 1000

/-- A single-number token run. -/
def cexParts : List Part := [⟨.num, "0"⟩]

/-- A zone table with only `Asia/Karachi`, at its fixed offset of UTC+5
(300 minutes); the zone has not observed daylight saving since 2009. -/
def tzdbK : String → Option Int := fun z => if z = "Asia/Karachi" then some 300 else none

/-- An empty zone table: every zone lookup throws. -/
def tzdbNone : String → Option Int := fun _ => none

/-- A query supplying every end-time mode at once: `end`, `end_local` with
`tz`, and `start` with a ttl. -/
def qPrec : Query := { qEmpty with
  «end» := some "2099-01-01T00:00:00Z",
  end_local := some "2025-09-01 00:00",
  tz := some "Asia/Karachi",
  start := some "2025-01-01T00:00:00Z",
  ttl_days := some "1" }

/-- A query supplying `end_local` without `tz`, plus a start/ttl pair. -/
def qSkip : Query := { qEmpty with
  end_local := some "2025-09-01 00:00",
  start := some "2025-01-01T00:00:00Z",
  ttl_days := some "1" }

/-- A query with out-of-range and unparseable rendering options. -/
def qJunk : Query := { qEmpty with
  w := some "99999",
  h := some "abc",
  scale := some "-3",
  padDays := some "2.9" }

/-- The local-wall-clock query of the reinterpretation law. -/
def qLocal : Query := { qEmpty with
  end_local := some "2025-09-01 00:00",
  tz := some "Asia/Karachi" }

/-- The absolute-end query of the reinterpretation law. -/
def qAbs : Query := { qEmpty with
  «end» := some "2025-08-31T19:00:00Z" }

/-- A query customizing the expired text and delimiter, with labels on. -/
def qExpired : Query := { qEmpty with
  expiredText := some "SALE ENDED",
  delim := some " ",
  show_labels := some "true" }

/-- A query requesting the debug JSON body. -/
def qDebug : Query := { qEmpty with debug := some "1" }

/-- A query whose end parameter is not a parseable instant. -/
def qBad : Query := { qEmpty with «end» := some "garbage" }

/-- A query with a parseable local end but an unknown timezone name. -/
def qTzErr : Query := { qEmpty with
  end_local := some "2025-09-01 00:00",
  tz := some "Nope/Zone" }

/-! Helper lemmas about strings, padding, the binary search, the measured
width, and the handler's failure paths. -/

theorem string_mk_length (l : List Char) : (⟨l⟩ : String).length = l.length := rfl

theorem toList_length (s : String) : s.toList.length = s.length := rfl

theorem padStart_length (s : String) (n : Nat) :
    (padStart s n).length = max s.length n := by
  simp only [padStart]
  split
  · omega
  · rw [string_mk_length, List.length_append, List.length_replicate, toList_length]
    omega

theorem slice_length_le (s : String) (n : Nat) : (slice s n).length ≤ n := by
  simp only [slice, string_mk_length, List.length_take]
  omega

theorem parseUtc_empty : parseUtc "" = none := rfl

theorem fitLoop_none (pred : Int → Bool) :
    ∀ (n : Nat) (low high fs : Int), (high + 1 - low).toNat ≤ n →
      (∀ s : Int, low ≤ s → s ≤ high → pred s = false) →
      fitLoop pred low high fs = fs := by
  intro n
  induction n with
  | zero =>
    intro low high fs hn hall
    rw [fitLoop]
    have h : ¬ low ≤ high := by omega
    simp [h]
  | succ n ih =>
    intro low high fs hn hall
    rw [fitLoop]
    by_cases h : low ≤ high
    · have hm1 : low ≤ (low + high) / 2 := by omega
      have hm2 : (low + high) / 2 ≤ high := by omega
      have hp : pred ((low + high) / 2) = false := hall _ hm1 hm2
      simp only [h, if_true, hp, Bool.false_eq_true, if_false]
      exact ih low ((low + high) / 2 - 1) fs (by omega)
        (fun s h1 h2 => hall s h1 (by omega))
    · simp [h]

theorem fitLoop_largest (pred : Int → Bool)
    (anti : ∀ s t : Int, s ≤ t → pred t = true → pred s = true) :
    ∀ (n : Nat) (low high fs : Int), (high + 1 - low).toNat ≤ n →
      ∀ M : Int, low ≤ M → M ≤ high → pred M = true →
        (∀ s : Int, low ≤ s → s ≤ high → pred s = true → s ≤ M) →
        fitLoop pred low high fs = M := by
  intro n
  induction n with
  | zero =>
    intro low high fs hn M hM1 hM2 _ _
    omega
  | succ n ih =>
    intro low high fs hn M hM1 hM2 hMp hMmax
    have h : low ≤ high := by omega
    rw [fitLoop]
    have hm1 : low ≤ (low + high) / 2 := by omega
    have hm2 : (low + high) / 2 ≤ high := by omega
    by_cases hp : pred ((low + high) / 2) = true
    · -- the midpoint fits, hence lies at or below the optimum
      have hmid_le : (low + high) / 2 ≤ M := hMmax _ hm1 hm2 hp
      simp only [hp, if_true, h]
      by_cases hup : (low + high) / 2 + 1 ≤ M
      · exact ih ((low + high) / 2 + 1) high ((low + high) / 2) (by omega) M hup hM2 hMp
          (fun s h1 h2 hs => hMmax s (by omega) h2 hs)
      · -- the optimum is the midpoint itself: above it everything fails
        have hMeq : M = (low + high) / 2 := by omega
        have hnone : fitLoop pred ((low + high) / 2 + 1) high ((low + high) / 2) = (low + high) / 2 := by
          apply fitLoop_none pred n _ _ _ (by omega)
          intro s h1 h2
          by_contra hc
          have hs : pred s = true := by
            cases hps : pred s
            · exact absurd hps hc
            · rfl
          have := hMmax s (by omega) h2 hs
          omega
        rw [hnone, hMeq]
    · -- the midpoint does not fit: the optimum lies strictly below it
      have hpf : pred ((low + high) / 2) = false := by
        cases hps : pred ((low + high) / 2)
        · rfl
        · exact absurd hps hp
      simp only [hpf, Bool.false_eq_true, if_false, h, if_true]
      have hMlt : M ≤ (low + high) / 2 - 1 := by
        by_contra hc
        have hge : (low + high) / 2 ≤ M := by omega
        have := anti _ _ hge hMp
        rw [hpf] at this
        exact absurd this (by simp)
      exact ih low ((low + high) / 2 - 1) fs (by omega) M hM1 hMlt hMp
        (fun s h1 h2 hs => hMmax s h1 (by omega) hs)

theorem exists_greatest_fit (pred : Int → Bool) :
    ∀ (n : Nat) (low high s : Int), (high - s).toNat ≤ n → low ≤ s → s ≤ high →
      pred s = true →
      ∃ M : Int, low ≤ M ∧ M ≤ high ∧ pred M = true ∧
        ∀ t : Int, low ≤ t → t ≤ high → pred t = true → t ≤ M := by
  intro n
  induction n with
  | zero =>
    intro low high s hn h1 h2 hs
    have hse : high = s := by omega
    exact ⟨s, h1, by omega, hs, fun t _ ht _ => by omega⟩
  | succ n ih =>
    intro low high s hn h1 h2 hs
    by_cases hh : pred high = true
    · exact ⟨high, by omega, le_refl high, hh, fun t _ ht _ => ht⟩
    · have hne : s ≠ high := fun he => hh (he ▸ hs)
      obtain ⟨M, hM1, hM2, hMp, hMmax⟩ := ih low (high - 1) s (by omega) h1 (by omega) hs
      refine ⟨M, hM1, by omega, hMp, fun t ht1 ht2 htp => ?_⟩
      have : t ≠ high := fun he => hh (he ▸ htp)
      exact hMmax t ht1 (by omega) htp

theorem wTotal_mono (measure : String → Int → ℚ)
    (hmono : ∀ txt : String, ∀ s t : Int, s ≤ t → measure txt s ≤ measure txt t)
    (parts : List Part) (s t : Int) (hst : s ≤ t) :
    wTotal measure parts s ≤ wTotal measure parts t := by
  have hcast : (s : ℚ) ≤ (t : ℚ) := Int.cast_le.mpr hst
  suffices h : ∀ (ps : List Part) (a b : ℚ), a ≤ b →
      ps.foldl (fun acc p => acc + (measure p.text s +
        (if p.type = .delim then (s : ℚ) * (1 / 10) else (s : ℚ) * (1 / 4)))) a ≤
      ps.foldl (fun acc p => acc + (measure p.text t +
        (if p.type = .delim then (t : ℚ) * (1 / 10) else (t : ℚ) * (1 / 4)))) b by
    exact h parts 0 0 (le_refl 0)
  intro ps
  induction ps with
  | nil => intro a b hab; exact hab
  | cons p ps ihp =>
    intro a b hab
    apply ihp
    apply add_le_add hab
    apply add_le_add (hmono p.text s t hst)
    by_cases hp : p.type = PartKind.delim
    · simp only [hp, if_true]
      apply mul_le_mul_of_nonneg_right hcast
      norm_num
    · simp only [hp, if_false]
      apply mul_le_mul_of_nonneg_right hcast
      norm_num

theorem handler_textError_only (tzdb : String → Option Int) (q : Query) (now : Int)
    (rT fT : Bool) (ht : isTextError (handler tzdb q now rT fT) = true) :
    resolveEnd tzdb q now = .ok none := by
  cases hres : resolveEnd tzdb q now with
  | error u =>
    cases u
    have hh : handler tzdb q now rT fT =
        if fT = true then Response.err500 else Response.fallbackPng := by
      unfold handler
      rw [hres]
    rw [hh] at ht
    cases fT <;> simp [isTextError] at ht
  | ok o =>
    cases o with
    | none => rfl
    | some endUtc =>
      have hh : handler tzdb q now rT fT =
          if q.debug = some "1" then Response.debugJson q now endUtc (remainingMs endUtc now)
          else if rT = true then (if fT = true then Response.err500 else Response.fallbackPng)
          else Response.png (widthOf q * scaleOf q) (heightOf q * scaleOf q) := by
        unfold handler
        rw [hres]
        by_cases hd : q.debug = some "1"
        · simp [hd]
        · simp only [hd, if_false]
          cases rT <;> cases fT <;> simp
      rw [hh] at ht
      by_cases hd : q.debug = some "1" <;> cases rT <;> cases fT <;>
        simp [hd, isTextError] at ht

/-! The claims. -/

/-- C1 (amended): for every token sequence and canvas, given a measurement
oracle monotone in font size, whenever some integer font size in
[12, floor(0.9 × content-band-height)] has total measured width (Number
tokens with a 25%-of-fontsize margin, Delimiter tokens with a 10% margin)
at most floor(0.92 × W), the binary search selects the largest such size;
when no size in the range fits, the search instead returns the initial
upper bound floor(0.9 × content-band-height) itself, whose width exceeds
the budget, so the claim's selection property does not hold in that case. -/
theorem fontFit_search (measure : String → Int → ℚ) (parts : List Part) (contentH w : Int)
    (hmono : ∀ txt : String, ∀ s t : Int, s ≤ t → measure txt s ≤ measure txt t) :
    ((∃ s : Int, 12 ≤ s ∧ s ≤ fitHigh contentH ∧ wTotal measure parts s ≤ (fitMaxWidth w : ℚ)) →
      12 ≤ fitFontSize measure parts contentH w ∧
      fitFontSize measure parts contentH w ≤ fitHigh contentH ∧
      wTotal measure parts (fitFontSize measure parts contentH w) ≤ (fitMaxWidth w : ℚ) ∧
      ∀ s : Int, 12 ≤ s → s ≤ fitHigh contentH → wTotal measure parts s ≤ (fitMaxWidth w : ℚ) →
        s ≤ fitFontSize measure parts contentH w) ∧
    ((∀ s : Int, 12 ≤ s → s ≤ fitHigh contentH → ¬ wTotal measure parts s ≤ (fitMaxWidth w : ℚ)) →
      fitFontSize measure parts contentH w = fitHigh contentH) := by
  have anti : ∀ s t : Int, s ≤ t →
      decide (wTotal measure parts t ≤ (fitMaxWidth w : ℚ)) = true →
      decide (wTotal measure parts s ≤ (fitMaxWidth w : ℚ)) = true := by
    intro s t hst hp
    rw [decide_eq_true_eq] at hp ⊢
    exact le_trans (wTotal_mono measure hmono parts s t hst) hp
  constructor
  · rintro ⟨s, hs1, hs2, hs3⟩
    obtain ⟨M, hM1, hM2, hMp, hMmax⟩ :=
      exists_greatest_fit (fun mid => decide (wTotal measure parts mid ≤ (fitMaxWidth w : ℚ)))
        (fitHigh contentH - s).toNat 12 (fitHigh contentH) s (le_refl _) hs1 hs2
        (decide_eq_true hs3)
    have hfit : fitFontSize measure parts contentH w = M := by
      unfold fitFontSize
      exact fitLoop_largest _ anti (fitHigh contentH + 1 - 12).toNat 12 (fitHigh contentH)
        (fitHigh contentH) (le_refl _) M hM1 hM2 hMp hMmax
    rw [hfit]
    rw [decide_eq_true_eq] at hMp
    exact ⟨hM1, hM2, hMp, fun t ht1 ht2 ht3 => hMmax t ht1 ht2 (decide_eq_true ht3)⟩
  · intro hall
    unfold fitFontSize
    exact fitLoop_none _ (fitHigh contentH + 1 - 12).toNat 12 (fitHigh contentH)
      (fitHigh contentH) (le_refl _)
      (fun s h1 h2 => decide_eq_false (hall s h1 h2))

/-- C1 witness: with the identity-width oracle and a single token on a
100×? band and width 1000, the selected size is in range and fits. -/
theorem fontFit_search_witness :
    12 ≤ fitFontSize wMeasure cexParts 100 1000 ∧
    fitFontSize wMeasure cexParts 100 1000 ≤ fitHigh 100 ∧
    wTotal wMeasure cexParts (fitFontSize wMeasure cexParts 100 1000) ≤ (fitMaxWidth 1000 : ℚ) := by
  have hmono : ∀ txt : String, ∀ s t : Int, s ≤ t → wMeasure txt s ≤ wMeasure txt t := by
    intro txt s t hst
    simp only [wMeasure]
    exact_mod_cast hst
  have hw : wTotal wMeasure cexParts 12 ≤ (fitMaxWidth 1000 : ℚ) := by
    simp [wTotal, cexParts, wMeasure]
    norm_num [fitMaxWidth]
  have h := (fontFit_search wMeasure cexParts 100 1000 hmono).1 ⟨12, le_refl 12, by decide, hw⟩
  exact ⟨h.1, h.2.1, h.2.2.1⟩

/-- C1 counterexample: with a monotone (constant) oracle of width 1000 on a
100×100 canvas, no size in [12, 90] fits the budget 92, yet the code
returns 90, whose measured width exceeds the budget — so the code does not
select a size whose total measured width is within 92% of W. -/
theorem fontFit_cex :
    fitFontSize cexMeasure cexParts 100 100 = 90 ∧
    fitHigh 100 = 90 ∧ fitMaxWidth 100 = 92 ∧
    ¬ wTotal cexMeasure cexParts 90 ≤ (fitMaxWidth 100 : ℚ) := by
  have hwt : ∀ s : Int, wTotal cexMeasure cexParts s = 1000 + (s : ℚ) * (1 / 4) := by
    intro s
    simp [wTotal, cexMeasure, cexParts]
  refine ⟨?_, rfl, rfl, ?_⟩
  swap
  · rw [hwt]
    norm_num [fitMaxWidth]
  unfold fitFontSize
  have h90 : fitHigh 100 = 90 := rfl
  rw [h90]
  apply fitLoop_none _ 79 _ _ _ (by norm_num)
  intro s h1 h2
  apply decide_eq_false
  intro hle
  have hcast : (12 : ℚ) ≤ (s : Int) := by exact_mod_cast h1
  rw [hwt] at hle
  have hmw : (fitMaxWidth 100 : ℚ) = 92 := by norm_num [fitMaxWidth]
  rw [hmw] at hle
  linarith

/-- C2: for every resolved end instant and every now, the remaining
duration equals max(0, endUtc − now): it is endUtc − now when the end is in
the future, exactly 0 whenever now ≥ endUtc, and never negative. -/
theorem remainingMs_clamp (endUtc now : Int) :
    remainingMs endUtc now = max 0 (endUtc - now) ∧
    (now < endUtc → remainingMs endUtc now = endUtc - now) ∧
    (endUtc ≤ now → remainingMs endUtc now = 0) ∧
    0 ≤ remainingMs endUtc now := by
  simp only [remainingMs]
  refine ⟨?_, ?_, ?_, ?_⟩
  all_goals intros
  all_goals split <;> omega

/-- C2 witness: a future end, the exact-boundary instant, and a past end. -/
theorem remainingMs_clamp_witness :
    remainingMs 1756666800000 1756666700000 = 1756666800000 - 1756666700000 ∧
    remainingMs 5 5 = 0 ∧ remainingMs 3 10 = 0 :=
  ⟨(remainingMs_clamp 1756666800000 1756666700000).2.1 (by decide),
   (remainingMs_clamp 5 5).2.2.1 (by decide),
   (remainingMs_clamp 3 10).2.2.1 (by decide)⟩

/-- C3: mode precedence — any parameter set supplying a (non-empty) `end`
uses the absolute-end mode regardless of the other parameters, and any set
supplying `end_local` without `tz` skips the local-with-zone mode, falling
through to start+ttl or the 24-hour default when `end` is also absent. -/
theorem mode_precedence (tzdb : String → Option Int) (q : Query) (now : Int) :
    (truthy q.«end» = true →
      selectMode q = Mode.absolute ∧
      resolveEnd tzdb q now = .ok (parseUtc (q.«end».getD ""))) ∧
    (truthy q.end_local = true → truthy q.tz = false →
      selectMode q ≠ Mode.localZone ∧
      (truthy q.«end» = false →
        selectMode q = Mode.startTtl ∨ selectMode q = Mode.evergreen)) := by
  constructor
  · intro he
    have hm : selectMode q = Mode.absolute := by simp [selectMode, he]
    exact ⟨hm, by rw [resolveEnd, hm]⟩
  · intro _ htz
    constructor
    · unfold selectMode
      by_cases he : truthy q.«end»
      · simp [he]
      · simp only [he, Bool.false_eq_true, if_false, htz, Bool.and_false]
        split <;> simp
    · intro he
      unfold selectMode
      simp only [he, Bool.false_eq_true, if_false, htz, Bool.and_false]
      split
      · exact Or.inl rfl
      · exact Or.inr rfl

/-- C3 witness: with every mode supplied at once the absolute mode wins,
and with `end_local` but no `tz` the local mode is skipped. -/
theorem mode_precedence_witness :
    selectMode qPrec = Mode.absolute ∧
    (selectMode qSkip = Mode.startTtl ∨ selectMode qSkip = Mode.evergreen) :=
  ⟨((mode_precedence tzdbNone qPrec 0).1 (by decide)).1,
   ((mode_precedence tzdbNone qSkip 0).2 (by decide) (by decide)).2 (by decide)⟩

/-- C4: resolving `end_local="2025-09-01 00:00"` with `tz="Asia/Karachi"`
yields the same absolute end instant as resolving `end="2025-08-31T19:00:00Z"`
(namely 1756666800000 ms), for every request moment, assuming the zone table
gives Karachi its fixed UTC+5 offset: the wall-clock digits are
reinterpreted in the zone, not shifted. -/
theorem localWithZone_reinterpretation (tzdb : String → Option Int) (now : Int)
    (hoff : tzdb "Asia/Karachi" = some 300) :
    resolveEnd tzdb qLocal now = resolveEnd tzdb qAbs now ∧
    resolveEnd tzdb qAbs now = .ok (some 1756666800000) := by
  have h2 : resolveEnd tzdb qAbs now = .ok (some 1756666800000) := rfl
  refine ⟨?_, h2⟩
  have h1 : resolveEnd tzdb qLocal now =
      match tzdb "Asia/Karachi" with
      | some off => .ok (some (epochMs 2025 9 1 0 0 0 - off * 60000))
      | none => .error () := rfl
  rw [h1, hoff, h2]
  have h3 : epochMs 2025 9 1 0 0 0 - 300 * 60000 = 1756666800000 := by decide
  simp only [h3]

/-- C4 witness: the law evaluated against the concrete Karachi zone table. -/
theorem localWithZone_witness :
    resolveEnd tzdbK qLocal 0 = resolveEnd tzdbK qAbs 0 ∧
    resolveEnd tzdbK qAbs 0 = .ok (some 1756666800000) :=
  localWithZone_reinterpretation tzdbK 0 rfl

/-- C5: for every valid start instant S, resolving start=S with ttl_days=1
and ttl_hours=12 yields end = S + 36 hours, the same end as resolving an
absolute end that parses to S + 36 hours; in general the resolved end is
start plus the day, hour, minute, second offsets in that order, with unset
offsets defaulting to 0. -/
theorem startPlusTtl_additive (tzdb : String → Option Int)
    (s e : String) (S now : Int) (td th tm ts : Option String)
    (hs : parseUtc s = some S) :
    (resolveEnd tzdb { qEmpty with
        start := some s,
        ttl_days := some "1",
        ttl_hours := some "12" } now = .ok (some (S + 36 * 3600000))) ∧
    (parseUtc e = some (S + 36 * 3600000) →
      resolveEnd tzdb { qEmpty with «end» := some e } now = .ok (some (S + 36 * 3600000))) ∧
    ((truthy td || truthy th || truthy tm || truthy ts) = true →
      resolveEnd tzdb { qEmpty with
          start := some s,
          ttl_days := td,
          ttl_hours := th,
          ttl_minutes := tm,
          ttl_seconds := ts } now
        = .ok (some (S + toInt td 0 * 86400000 + toInt th 0 * 3600000 +
            toInt tm 0 * 60000 + toInt ts 0 * 1000))) := by
  have hneq : s ≠ "" := by
    intro h0
    rw [h0, parseUtc_empty] at hs
    exact Option.noConfusion hs
  refine ⟨?_, fun he => ?_, fun httl => ?_⟩
  · have hm : selectMode { qEmpty with
        start := some s,
        ttl_days := some "1",
        ttl_hours := some "12" } = Mode.startTtl := by
      simp [selectMode, truthy, hneq, qEmpty]
    rw [resolveEnd, hm]
    simp only [Option.getD_some, hs]
    have h1 : toInt (some "1") 0 = 1 := by decide
    have h2 : toInt (some "12") 0 = 12 := by decide
    have h3 : qEmpty.ttl_minutes = none := rfl
    have h4 : qEmpty.ttl_seconds = none := rfl
    rw [h1, h2, h3, h4]
    simp only [toInt, Except.ok.injEq, Option.some.injEq]
    omega
  · have hm : selectMode { qEmpty with «end» := some e } = Mode.absolute := by
      have : e ≠ "" := by
        intro h0
        rw [h0, parseUtc_empty] at he
        exact Option.noConfusion he
      simp [selectMode, truthy, this, qEmpty]
    rw [resolveEnd, hm]
    simp only [Option.getD_some, he]
  · have hm : selectMode { qEmpty with
        start := some s,
        ttl_days := td,
        ttl_hours := th,
        ttl_minutes := tm,
        ttl_seconds := ts } = Mode.startTtl := by
      simp only [selectMode, qEmpty]
      have h1 : truthy (some s) = true := by simp [truthy, hneq]
      have h2 : truthy (none : Option String) = false := rfl
      simp [h1, h2, httl]
    rw [resolveEnd, hm]
    simp only [Option.getD_some, hs]

/-- C5 witness: start 2025-01-01T00:00:00Z with ttl 1 day 12 hours equals
the absolute end 2025-01-02T12:00:00Z. -/
theorem startPlusTtl_witness :
    resolveEnd tzdbNone { qEmpty with
      start := some "2025-01-01T00:00:00Z",
      ttl_days := some "1",
      ttl_hours := some "12" } 0 = .ok (some (1735689600000 + 36 * 3600000)) ∧
    resolveEnd tzdbNone { qEmpty with
      «end» := some "2025-01-02T12:00:00Z" } 0 = .ok (some (1735689600000 + 36 * 3600000)) :=
  ⟨(startPlusTtl_additive tzdbNone "2025-01-01T00:00:00Z" "2025-01-02T12:00:00Z" 1735689600000 0
      none none none none (by decide)).1,
   (startPlusTtl_additive tzdbNone "2025-01-01T00:00:00Z" "2025-01-02T12:00:00Z" 1735689600000 0
      none none none none (by decide)).2.1 (by decide)⟩

/-- C6: for every nonzero remaining duration the token run is exactly the
four Number tokens — days zero-padded to at least padDays digits and never
truncated, then hours, minutes, seconds of the remainder each padded to two
digits — with Delimiter tokens only between consecutive Number tokens; for
2 days 3 hours 4 minutes 5 seconds with padDays 2 the groups are
["02","03","04","05"]. -/
theorem token_decomposition (ms padDays : Nat) (delim expiredText : String) (h : ms ≠ 0) :
    mkParts delim (groups ms padDays expiredText delim) =
      [⟨.num, padStart (toString (durDays ms)) padDays⟩, ⟨.delim, delim⟩,
       ⟨.num, padStart (toString (durHours ms)) 2⟩, ⟨.delim, delim⟩,
       ⟨.num, padStart (toString (durMinutes ms)) 2⟩, ⟨.delim, delim⟩,
       ⟨.num, padStart (toString (durSeconds ms)) 2⟩] ∧
    (padStart (toString (durDays ms)) padDays).length = max (toString (durDays ms)).length padDays ∧
    (padDays ≤ (toString (durDays ms)).length →
      padStart (toString (durDays ms)) padDays = toString (durDays ms)) ∧
    groupsOf (2 * 86400000 + 3 * 3600000 + 4 * 60000 + 5 * 1000) 2 = ["02", "03", "04", "05"] := by
  refine ⟨?_, padStart_length _ _, fun hlen => ?_, by decide⟩
  · simp [groups, h, groupsOf, mkParts]
  · simp [padStart, hlen]

/-- C6 witness: the concrete duration 2d 3h 4m 5s with padDays 2. -/
theorem token_decomposition_witness :
    mkParts ":" (groups 183845000 2 "00:00:00:00" ":") =
      [⟨.num, padStart (toString (durDays 183845000)) 2⟩, ⟨.delim, ":"⟩,
       ⟨.num, padStart (toString (durHours 183845000)) 2⟩, ⟨.delim, ":"⟩,
       ⟨.num, padStart (toString (durMinutes 183845000)) 2⟩, ⟨.delim, ":"⟩,
       ⟨.num, padStart (toString (durSeconds 183845000)) 2⟩] ∧
    groupsOf (2 * 86400000 + 3 * 3600000 + 4 * 60000 + 5 * 1000) 2 = ["02", "03", "04", "05"] :=
  ⟨(token_decomposition 183845000 2 ":" "00:00:00:00" (by decide)).1,
   (token_decomposition 183845000 2 ":" "00:00:00:00" (by decide)).2.2.2⟩

/-- C7: whenever the remaining duration is zero the display groups are the
configured expired text (truncated to 32 characters) split on the
configured delimiter (truncated to 3 characters), and unit labels are
suppressed regardless of the show_labels flag. -/
theorem expired_state (q : Query) (ms : Nat) (hms : ms = 0) :
    groups ms (padDaysOf q).toNat (expiredTextOf q) (delimOf q)
        = (expiredTextOf q).splitOn (delimOf q) ∧
    showUnitLabels q ms = false ∧
    (expiredTextOf q).length ≤ 32 ∧
    (delimOf q).length ≤ 3 := by
  subst hms
  exact ⟨by simp [groups], by simp [showUnitLabels],
    slice_length_le _ _, slice_length_le _ _⟩

/-- C7 witness: a custom expired text and delimiter with labels enabled. -/
theorem expired_state_witness :
    groups 0 (padDaysOf qExpired).toNat (expiredTextOf qExpired) (delimOf qExpired)
        = (expiredTextOf qExpired).splitOn (delimOf qExpired) ∧
    showUnitLabels qExpired 0 = false :=
  ⟨(expired_state qExpired 0 rfl).1, (expired_state qExpired 0 rfl).2.1⟩

/-- C8: the rendering options are clamped into their documented ranges —
width into [200,1600], height into [80,400], scale into [1,2], padDays into
[1,4] — never rejected (a plain-text error can only arise from an invalid
end time, independent of these options), and an unparseable value falls
back to its default (600, 140, 1, 2) before clamping. -/
theorem boundary_clamping (tzdb : String → Option Int) (q : Query) (now : Int) (rT fT : Bool) :
    (200 ≤ widthOf q ∧ widthOf q ≤ 1600) ∧
    (80 ≤ heightOf q ∧ heightOf q ≤ 400) ∧
    (1 ≤ scaleOf q ∧ scaleOf q ≤ 2) ∧
    (1 ≤ padDaysOf q ∧ padDaysOf q ≤ 4) ∧
    (q.w.bind parseIntJs = none → widthOf q = 600) ∧
    (q.h.bind parseIntJs = none → heightOf q = 140) ∧
    (q.scale.bind parseIntJs = none → scaleOf q = 1) ∧
    (q.padDays.bind parseIntJs = none → padDaysOf q = 2) ∧
    (isTextError (handler tzdb q now rT fT) = true → resolveEnd tzdb q now = .ok none) := by
  have key : ∀ (v : Option String) (d : Int), v.bind parseIntJs = none → toInt v d = d := by
    intro v d h
    cases hv : v with
    | none => rfl
    | some s =>
      rw [hv] at h
      simp only [Option.some_bind] at h
      simp [toInt, h]
  refine ⟨⟨?_, ?_⟩, ⟨?_, ?_⟩, ⟨?_, ?_⟩, ⟨?_, ?_⟩, fun h => ?_, fun h => ?_, fun h => ?_,
      fun h => ?_, handler_textError_only tzdb q now rT fT⟩ <;>
    simp only [widthOf, heightOf, scaleOf, padDaysOf, clamp] <;>
    first
      | omega
      | (rw [key _ _ h]; decide)

/-- C8 witness: out-of-range and unparseable option values are clamped and
defaulted, not rejected. -/
theorem boundary_clamping_witness :
    (200 ≤ widthOf qJunk ∧ widthOf qJunk ≤ 1600) ∧
    heightOf qJunk = 140 ∧
    (1 ≤ scaleOf qJunk ∧ scaleOf qJunk ≤ 2) ∧
    (1 ≤ padDaysOf qJunk ∧ padDaysOf qJunk ≤ 4) :=
  ⟨(boundary_clamping tzdbNone qJunk 0 false false).1,
   (boundary_clamping tzdbNone qJunk 0 false false).2.2.2.2.2.1 (by decide),
   (boundary_clamping tzdbNone qJunk 0 false false).2.2.1,
   (boundary_clamping tzdbNone qJunk 0 false false).2.2.2.1⟩

/-- C9 (amended): an unresolvable end time yields the plain-text 400
response, and that is the only plain-text failure; a thrown exception
(including one from interpreting the timezone parameter) or a rendering
failure yields the 200 fallback 1×1 PNG — unless producing the fallback PNG
itself also throws, in which case the response is an empty error-status
(500) body rather than a success-status image. -/
theorem error_two_tier (tzdb : String → Option Int) (q : Query) (now : Int) (rT fT : Bool) :
    (resolveEnd tzdb q now = .ok none → handler tzdb q now rT fT = .badRequest "Invalid end time") ∧
    (resolveEnd tzdb q now = .error () → handler tzdb q now rT false = .fallbackPng) ∧
    (resolveEnd tzdb q now = .error () → handler tzdb q now rT true = .err500) ∧
    (q.debug ≠ some "1" → resolveEnd tzdb q now ≠ .ok none →
      handler tzdb q now true false = .fallbackPng ∧ handler tzdb q now true true = .err500) ∧
    (isTextError (handler tzdb q now rT fT) = true → resolveEnd tzdb q now = .ok none) := by
  refine ⟨fun h => ?_, fun h => ?_, fun h => ?_, fun hd hn => ?_,
    handler_textError_only tzdb q now rT fT⟩
  · unfold handler; rw [h]
  · unfold handler; rw [h]; rfl
  · unfold handler; rw [h]; rfl
  · cases hres : resolveEnd tzdb q now with
    | error u =>
      cases u
      exact ⟨by unfold handler; rw [hres]; rfl, by unfold handler; rw [hres]; rfl⟩
    | ok o =>
      cases o with
      | none => exact absurd hres hn
      | some endUtc =>
        constructor
        · unfold handler; rw [hres]; simp [hd]
        · unfold handler; rw [hres]; simp [hd]

/-- C9 witness: an unparseable end gives the 400 text, an unknown timezone
gives the 200 fallback PNG, and a render failure gives the fallback PNG or,
when the fallback also throws, the empty 500. -/
theorem error_two_tier_witness :
    handler tzdbK qBad 0 false false = .badRequest "Invalid end time" ∧
    handler tzdbK qTzErr 0 false false = .fallbackPng ∧
    handler tzdbK qEmpty 0 true false = .fallbackPng ∧
    handler tzdbK qEmpty 0 true true = .err500 := by
  refine ⟨(error_two_tier tzdbK qBad 0 false false).1 rfl,
    (error_two_tier tzdbK qTzErr 0 false false).2.1 rfl,
    (error_two_tier tzdbK qEmpty 0 true true).2.2.2.1 (by decide)
      (fun hc => Option.noConfusion (Except.ok.inj hc))⟩

/-- C9 counterexample: when the fallback PNG encoding itself throws after a
rendering failure, the response is the empty 500 body — an error status
with no 1×1 transparent PNG — so not every non-validation failure yields a
success-status image response. -/
theorem error_two_tier_cex :
    handler tzdbNone qEmpty 0 true true = .err500 ∧
    Response.err500 ≠ Response.fallbackPng ∧
    isImage Response.err500 = false :=
  ⟨rfl, by decide, rfl⟩

/-- C10: a request with debug="1" whose end time resolves to a valid
instant gets the JSON debug document carrying the query, nowUtc, endUtc and
diffMs, and no PNG image (main or fallback) and no plain-text error is
produced. -/
theorem debug_mode (tzdb : String → Option Int) (q : Query) (now endUtc : Int)
    (rT fT : Bool) (hdbg : q.debug = some "1")
    (hres : resolveEnd tzdb q now = .ok (some endUtc)) :
    handler tzdb q now rT fT = .debugJson q now endUtc (remainingMs endUtc now) ∧
    isImage (handler tzdb q now rT fT) = false ∧
    isTextError (handler tzdb q now rT fT) = false := by
  have h1 : handler tzdb q now rT fT = .debugJson q now endUtc (remainingMs endUtc now) := by
    unfold handler
    rw [hres]
    simp [hdbg]
  exact ⟨h1, by rw [h1]; rfl, by rw [h1]; rfl⟩

/-- C10 witness: debug="1" on the default 24-hour countdown. -/
theorem debug_mode_witness :
    handler tzdbNone qDebug 0 true true = .debugJson qDebug 0 86400000 (remainingMs 86400000 0) ∧
    isImage (handler tzdbNone qDebug 0 true true) = false :=
  ⟨(debug_mode tzdbNone qDebug 0 86400000 true true rfl rfl).1,
   (debug_mode tzdbNone qDebug 0 86400000 true true rfl rfl).2.1⟩

end EmailTimer
